import Mathlib

/-!
Verification of the ACI contract parser's data-collection core
(`ACIAnalyzer` and the report-generation logic of `ReportGenerator` in
`contract_parser.py`).

The APIC REST API is modelled as a typed environment `ApiEnv`: each field
corresponds to one family of GET requests the analyzer issues, and returns
`Option (Option (List _))`, where the outer `none` is the transport-level
"no data" sentinel (`session.get` returned `None`), the inner `none` is a
response whose `imdata` key is absent, and `some []` is an empty `imdata`
list.  Python's truthiness tests (`if not data`, `not data.get("imdata")`)
are translated case by case.
-/

namespace AciParser

/-- Python `needle in haystack` on characters: `needle.isPrefixOf` at some
suffix of the haystack. -/
def charListContains (needle : List Char) : List Char → Bool
  | [] => needle.isEmpty
  | c :: rest => needle.isPrefixOf (c :: rest) || charListContains needle rest

/-- Python substring test `needle in hay` on strings. -/
def strContainsSub (hay needle : String) : Bool :=
  charListContains needle.data hay.data

/-- Lexicographic comparison of character lists: the order Python's
`sorted` applies to string keys (compare code points at the first
difference; a proper prefix sorts first). -/
def charListLe : List Char → List Char → Bool
  | [], _ => true
  | _ :: _, [] => false
  | a :: as, b :: bs => if a = b then charListLe as bs else decide (a < b)

/-- Python string comparison `a <= b`. -/
def strLe (a b : String) : Bool :=
  charListLe a.data b.data

theorem charListLe_total (x y : List Char) :
    charListLe x y = true ∨ charListLe y x = true := by
  induction x generalizing y with
  | nil => exact Or.inl rfl
  | cons a as ih =>
    cases y with
    | nil => exact Or.inr rfl
    | cons b bs =>
      by_cases hab : a = b
      · subst hab
        rcases ih bs with h | h
        · exact Or.inl (by simpa [charListLe] using h)
        · exact Or.inr (by simpa [charListLe] using h)
      · rcases lt_or_gt_of_ne hab with h | h
        · exact Or.inl (by simp [charListLe, hab, h])
        · exact Or.inr (by simp [charListLe, Ne.symm hab, h])

theorem charListLe_trans (x y z : List Char)
    (hxy : charListLe x y = true) (hyz : charListLe y z = true) :
    charListLe x z = true := by
  induction x generalizing y z with
  | nil => rfl
  | cons a as ih =>
    cases y with
    | nil => simp [charListLe] at hxy
    | cons b bs =>
      cases z with
      | nil => simp [charListLe] at hyz
      | cons c cs =>
        by_cases hab : a = b <;> by_cases hbc : b = c
        · subst hab; subst hbc
          simp only [charListLe, if_pos rfl] at hxy hyz ⊢
          exact ih bs cs hxy hyz
        · subst hab
          simpa [charListLe, hbc] using hyz
        · subst hbc
          simpa [charListLe, hab] using hxy
        · simp only [charListLe, if_neg hab, decide_eq_true_eq] at hxy
          simp only [charListLe, if_neg hbc, decide_eq_true_eq] at hyz
          have hac : a < c := lt_trans hxy hyz
          simp [charListLe, ne_of_lt hac, hac]

/-- `EXCLUDED_TENANTS = {"mgmt", "infra", "common"}` from the source. -/
def EXCLUDED_TENANTS : List String := ["mgmt", "infra", "common"]

/-- Attributes of an `fvTenant` record used by `get_tenants`. -/
structure TenantAttrs where
  name : String
  dn : String
deriving DecidableEq

/-- Attributes of an `fvCtx` (VRF) record used by `_get_tenant_vrfs`. -/
structure CtxAttrs where
  name : String
  dn : String
deriving DecidableEq

/-- Attributes of a `vzBrCP` (contract) record used by `get_contracts`. -/
structure BrCPAttrs where
  name : String
  dn : String
deriving DecidableEq

/-- One `imdata` item of the relation query in `get_contract_relationships`:
either a `vzRtProv` or a `vzRtCons` record, carrying its `tDn` attribute. -/
inductive RelItem where
  | prov (tDn : String)
  | cons (tDn : String)
deriving DecidableEq

/-- The `tDn` attribute of a relation record. -/
def RelItem.tDn : RelItem → String
  | .prov t => t
  | .cons t => t

/-- One `imdata` item of the plain object fetch `/node/mo/dn.json`: the
class key the EPG resolvers index by (`l3extInstP` or `fvAEPg`), with the
`name` attribute each of them reads. -/
inductive MoItem where
  | l3extInstP (name : String)
  | fvAEPg (name : String)
deriving DecidableEq

/-- Attributes of an `fvRsBd` record: the Bridge-Domain target `tDn`. -/
structure RsBdAttrs where
  tDn : String
deriving DecidableEq

/-- Attributes of an `fvSubnet` record (internal subnets): mandatory `ip`,
optional `descr` (read with `.get("descr", "")`). -/
structure FvSubnetAttrs where
  ip : String
  descr : Option String
deriving DecidableEq

/-- Attributes of an `l3extSubnet` record (external subnets): mandatory
`ip`; `name`, `descr` and `scope` may be absent (`.get(k, "")`). -/
structure L3SubnetAttrs where
  ip : String
  name : Option String
  descr : Option String
  scope : Option String
deriving DecidableEq

/-- One response of `ACISession.get`: `none` models `session.get`
returning `None`; otherwise the `imdata` key may be absent (`none`) or
hold a list of items. -/
abbrev ApiResp (α : Type) := Option (Option (List α))

/-- The controller as seen through `ACISession.get`, split by the URL
families the analyzer builds.  Each field is one query shape, keyed by the
distinguished name interpolated into the URL. -/
structure ApiEnv where
  /-- `GET /node/class/fvTenant.json` -/
  classTenants : ApiResp TenantAttrs
  /-- `GET /node/mo/dn.json?query-target=children&target-subtree-class=fvCtx` -/
  tenantVrfs : String → ApiResp CtxAttrs
  /-- `GET /node/mo/dn.json?query-target=children&target-subtree-class=vzBrCP` -/
  tenantContracts : String → ApiResp BrCPAttrs
  /-- `GET /node/mo/dn.json?query-target=children&target-subtree-class=vzRtProv,vzRtCons` -/
  contractRelations : String → ApiResp RelItem
  /-- `GET /node/mo/dn.json` -/
  moFetch : String → ApiResp MoItem
  /-- `GET /node/mo/dn.json?query-target=children&target-subtree-class=fvRsBd` -/
  epgRsBd : String → ApiResp RsBdAttrs
  /-- `GET /node/mo/dn.json?query-target=children&target-subtree-class=fvSubnet` -/
  bdSubnets : String → ApiResp FvSubnetAttrs
  /-- `GET /node/mo/dn.json?query-target=children&target-subtree-class=l3extSubnet` -/
  extSubnets : String → ApiResp L3SubnetAttrs

/-- The transport-level "no data" outcomes a caller observes on one
response: `get` returned `None`, or `imdata` is absent or empty.  This is
exactly the condition `not data or not data.get("imdata")`. -/
def noData {α : Type} (r : ApiResp α) : Prop :=
  r = none ∨ r = some none ∨ r = some (some [])

instance {α : Type} [DecidableEq α] (r : ApiResp α) : Decidable (noData r) := by
  unfold noData; infer_instance

/-- A VRF entry as returned by `_get_tenant_vrfs`. -/
structure Vrf where
  name : String
  dn : String
deriving DecidableEq

/-- A tenant entry as returned by `get_tenants`. -/
structure Tenant where
  name : String
  dn : String
  vrfs : List Vrf
deriving DecidableEq

/-- A contract entry as returned by `get_contracts`. -/
structure Contract where
  name : String
  dn : String
deriving DecidableEq

/-- A subnet dict as built by `_get_internal_subnets` /
`_get_external_subnets`: keys `ip`, `description`, `type`. -/
structure SubnetInfo where
  ip : String
  description : String
  type : String
deriving DecidableEq

/-- An EPG dict as built by `_get_external_epg_info` /
`_get_internal_epg_info`: keys `name`, `type`, `dn`, `subnets`. -/
structure EpgInfo where
  name : String
  type : String
  dn : String
  subnets : List SubnetInfo
deriving DecidableEq

/-- The sort key `key=lambda t: t["name"]` of `get_tenants`, as the
relation Python's stable `sorted` orders by. -/
def tenantLe (a b : Tenant) : Prop := strLe a.name b.name = true

instance : DecidableRel tenantLe := fun a b =>
  inferInstanceAs (Decidable (strLe a.name b.name = true))

instance : IsTotal Tenant tenantLe :=
  ⟨fun a b => charListLe_total a.name.data b.name.data⟩

instance : IsTrans Tenant tenantLe :=
  ⟨fun _ _ _ h h' => charListLe_trans _ _ _ h h'⟩

/-- `_get_tenant_vrfs`: fetch `fvCtx` children; `if not data: return []`,
then map over `data.get("imdata", [])`. -/
def get_tenant_vrfs (env : ApiEnv) (tenant_dn : String) : List Vrf :=
  match env.tenantVrfs tenant_dn with
  | none => []
  | some d => (d.getD []).map fun a => { name := a.name, dn := a.dn }

/-- `get_tenants`: fetch the `fvTenant` class; `if not data: return []`;
keep non-excluded names, attaching each tenant's VRFs; sort by name. -/
def get_tenants (env : ApiEnv) : List Tenant :=
  match env.classTenants with
  | none => []
  | some d =>
    let tenants := (d.getD []).filterMap fun a =>
      if EXCLUDED_TENANTS.contains a.name then none
      else some { name := a.name, dn := a.dn, vrfs := get_tenant_vrfs env a.dn }
    tenants.insertionSort tenantLe

/-- `get_contracts`: fetch `vzBrCP` children of the tenant. -/
def get_contracts (env : ApiEnv) (tenant_dn : String) : List Contract :=
  match env.tenantContracts tenant_dn with
  | none => []
  | some d => (d.getD []).map fun a => { name := a.name, dn := a.dn }

/-- The body of the subnet loop of `_get_external_subnets`: `description`
is read from the `name` attribute, and the `type` tag is `"exp"` when
`"export-rtctrl" in scope`, else `"ext"`. -/
def extSubnetOfAttrs (a : L3SubnetAttrs) : SubnetInfo :=
  let scope := a.scope.getD ""
  { ip := a.ip
    description := a.name.getD ""
    type := if strContainsSub scope "export-rtctrl" then "exp" else "ext" }

/-- The body of the subnet comprehension of `_get_internal_subnets`:
`description` is read from the `descr` attribute, `type` is `"internal"`. -/
def internalSubnetOfAttrs (a : FvSubnetAttrs) : SubnetInfo :=
  { ip := a.ip, description := a.descr.getD "", type := "internal" }

/-- `_get_external_subnets`: fetch `l3extSubnet` children; on no data
return `[]`; otherwise classify each record. -/
def get_external_subnets (env : ApiEnv) (ext_epg_dn : String) : List SubnetInfo :=
  match env.extSubnets ext_epg_dn with
  | some (some items) =>
    if items.isEmpty then [] else items.map extSubnetOfAttrs
  | _ => []

/-- `_get_internal_subnets`: fetch the `fvRsBd` child, take the first
record's `tDn` as the Bridge Domain, then fetch that Bridge Domain's
`fvSubnet` children; any no-data response returns `[]`. -/
def get_internal_subnets (env : ApiEnv) (epg_dn : String) : List SubnetInfo :=
  match env.epgRsBd epg_dn with
  | some (some (first :: _)) =>
    let bd_dn := first.tDn
    match env.bdSubnets bd_dn with
    | some (some items) =>
      if items.isEmpty then [] else items.map internalSubnetOfAttrs
    | _ => []
  | _ => []

/-- `_get_external_epg_info`: plain object fetch; no data gives `None`;
otherwise the first item is read under the `l3extInstP` key.  (A first
item of another class raises `KeyError` in Python; that branch is
modelled as `none` and is not relied on by any theorem.) -/
def get_external_epg_info (env : ApiEnv) (epg_dn : String) : Option EpgInfo :=
  match env.moFetch epg_dn with
  | some (some (item :: _)) =>
    match item with
    | .l3extInstP name =>
      some { name := name, type := "external", dn := epg_dn
             subnets := get_external_subnets env epg_dn }
    | .fvAEPg _ => none
  | _ => none

/-- `_get_internal_epg_info`: plain object fetch; no data gives `None`;
otherwise the first item is read under the `fvAEPg` key. -/
def get_internal_epg_info (env : ApiEnv) (epg_dn : String) : Option EpgInfo :=
  match env.moFetch epg_dn with
  | some (some (item :: _)) =>
    match item with
    | .fvAEPg name =>
      some { name := name, type := "internal", dn := epg_dn
             subnets := get_internal_subnets env epg_dn }
    | .l3extInstP _ => none
  | _ => none

/-- `_get_epg_info`: dispatch on `"/out-" in epg_dn`. -/
def get_epg_info (env : ApiEnv) (epg_dn : String) : Option EpgInfo :=
  if strContainsSub epg_dn "/out-" then get_external_epg_info env epg_dn
  else get_internal_epg_info env epg_dn

/-- One iteration of the relation loop of `get_contract_relationships`:
a resolved provider or consumer is appended to its list; an unresolved
relation leaves both lists unchanged. -/
def relStep (env : ApiEnv) (acc : List EpgInfo × List EpgInfo) (item : RelItem) :
    List EpgInfo × List EpgInfo :=
  match item with
  | .prov tDn =>
    match get_epg_info env tDn with
    | some e => (acc.1 ++ [e], acc.2)
    | none => acc
  | .cons tDn =>
    match get_epg_info env tDn with
    | some e => (acc.1, acc.2 ++ [e])
    | none => acc

/-- `get_contract_relationships`: fetch the `vzRtProv`/`vzRtCons` children
and fold the relation loop over them, starting from two empty lists. -/
def get_contract_relationships (env : ApiEnv) (contract_dn : String) :
    List EpgInfo × List EpgInfo :=
  match env.contractRelations contract_dn with
  | none => ([], [])
  | some d => (d.getD []).foldl (relStep env) ([], [])

/-- The running totals dict `stats` of `generate_complete_report`. -/
structure Stats where
  contracts : Nat
  providers : Nat
  consumers : Nat
deriving DecidableEq

/-- One contract block written by `_write_contract_details`: the contract
name and its resolved provider and consumer lists. -/
structure ContractEntry where
  name : String
  providers : List EpgInfo
  consumers : List EpgInfo
deriving DecidableEq

/-- The sort key `key=lambda c: c["name"]` used on contracts. -/
def contractLe (a b : Contract) : Prop := strLe a.name b.name = true

instance : DecidableRel contractLe := fun a b =>
  inferInstanceAs (Decidable (strLe a.name b.name = true))

/-- `sorted(contracts, key=lambda c: c["name"])` inside
`_write_tenant_section`. -/
def sortContracts (l : List Contract) : List Contract :=
  l.insertionSort contractLe

/-- One iteration of the contract loop of `_write_tenant_section`: a
contract whose providers and consumers are both empty is skipped;
otherwise its block is written and the provider/consumer totals grow. -/
def sectStep (env : ApiEnv) (acc : List ContractEntry × Stats) (c : Contract) :
    List ContractEntry × Stats :=
  let pc := get_contract_relationships env c.dn
  if pc.1.isEmpty && pc.2.isEmpty then acc
  else
    (acc.1 ++ [{ name := c.name, providers := pc.1, consumers := pc.2 }],
     { acc.2 with
        providers := acc.2.providers + pc.1.length
        consumers := acc.2.consumers + pc.2.length })

/-- `_write_tenant_section`: iterate the contract loop over the contracts
sorted by name, returning the written contract blocks and the updated
stats. -/
def write_tenant_section (env : ApiEnv) (contracts : List Contract) (stats : Stats) :
    List ContractEntry × Stats :=
  (sortContracts contracts).foldl (sectStep env) ([], stats)

/-- The summary figure of `_write_summary`, line
`len([t for t in tenants if self.analyzer.get_contracts(t["dn"])])`:
a second fetch of each tenant's contracts, counting the tenants whose
list is non-empty. -/
def tenantsAnalyzedCount (env : ApiEnv) (tenants : List Tenant) : Nat :=
  (tenants.filter fun t => !(get_contracts env t.dn).isEmpty).length

/-- The report data produced by `generate_complete_report`: the tenant
sections of the body, the accumulated stats, and the "tenants analysed"
summary figure. -/
structure Report where
  sections : List (Tenant × List ContractEntry)
  stats : Stats
  tenantsAnalyzed : Nat
deriving DecidableEq

/-- One iteration of the tenant loop of `generate_complete_report`: a
tenant with no contracts is skipped; otherwise the contract total grows
by the tenant's contract count and its section is written. -/
def reportStep (env : ApiEnv) (acc : List (Tenant × List ContractEntry) × Stats)
    (t : Tenant) : List (Tenant × List ContractEntry) × Stats :=
  let contracts := get_contracts env t.dn
  if contracts.isEmpty then acc
  else
    let st := { acc.2 with contracts := acc.2.contracts + contracts.length }
    let bodySt := write_tenant_section env contracts st
    (acc.1 ++ [(t, bodySt.1)], bodySt.2)

/-- `generate_complete_report`: fetch the tenants, fold the tenant loop,
then compute the summary figure by the second per-tenant contract fetch of
`_write_summary`. -/
def generate_complete_report (env : ApiEnv) : Report :=
  let tenants := get_tenants env
  let bodySt := tenants.foldl (reportStep env) ([], ⟨0, 0, 0⟩)
  { sections := bodySt.1
    stats := bodySt.2
    tenantsAnalyzed := tenantsAnalyzedCount env tenants }

/-! ### A concrete environment used by the witnesses

One tenant `alpha` (plus an excluded `infra` and a VRF-less `zeta`),
one contract `c1` with an external provider, an internal consumer, and a
provider relation whose target fetch returns no data. -/

/-- Distinguished name of the external EPG in the witness environment. -/
def extDn : String := "uni/tn-a/out-O/instP-E"

/-- Distinguished name of the internal EPG in the witness environment. -/
def intDn : String := "uni/tn-a/ap-A/epg-I"

/-- A small concrete controller used by the witness theorems. -/
def envW : ApiEnv where
  classTenants :=
    some (some [⟨"zeta", "tn-zeta"⟩, ⟨"infra", "tn-infra"⟩, ⟨"alpha", "tn-alpha"⟩])
  tenantVrfs := fun dn =>
    if dn = "tn-alpha" then some (some [⟨"v1", "ctx-v1"⟩]) else none
  tenantContracts := fun dn =>
    if dn = "tn-alpha" then some (some [⟨"c1", "cdn-1"⟩]) else none
  contractRelations := fun dn =>
    if dn = "cdn-1" then
      some (some [.prov extDn, .cons intDn, .prov "uni/tn-a/out-O/instP-gone"])
    else none
  moFetch := fun dn =>
    if dn = extDn then some (some [.l3extInstP "E"])
    else if dn = intDn then some (some [.fvAEPg "I"])
    else none
  epgRsBd := fun dn =>
    if dn = intDn then some (some [⟨"bd-1"⟩]) else none
  bdSubnets := fun dn =>
    if dn = "bd-1" then some (some [⟨"10.0.0.0/24", some "servers"⟩]) else none
  extSubnets := fun dn =>
    if dn = extDn then
      some (some [⟨"20.0.0.0/24", some "partner", some "unused", some "export-rtctrl"⟩])
    else none

/-- The EPG dict `envW` yields for the external target path. -/
def extEpgW : EpgInfo :=
  { name := "E", type := "external", dn := extDn
    subnets := [⟨"20.0.0.0/24", "partner", "exp"⟩] }

/-- The EPG dict `envW` yields for the internal target path. -/
def intEpgW : EpgInfo :=
  { name := "I", type := "internal", dn := intDn
    subnets := [⟨"10.0.0.0/24", "servers", "internal"⟩] }

/-! ### Helper lemmas shared by the claim theorems -/

/-- A no-data VRF response yields an empty VRF list. -/
theorem get_tenant_vrfs_of_noData (env : ApiEnv) (dn : String)
    (h : noData (env.tenantVrfs dn)) : get_tenant_vrfs env dn = [] := by
  rcases h with h | h | h <;> simp [get_tenant_vrfs, h]

/-- `get_tenants` depends only on the tenant-class and VRF responses. -/
theorem get_tenants_congr (env₁ env₂ : ApiEnv)
    (h1 : env₁.classTenants = env₂.classTenants)
    (h2 : ∀ dn, env₁.tenantVrfs dn = env₂.tenantVrfs dn) :
    get_tenants env₁ = get_tenants env₂ := by
  simp only [get_tenants, get_tenant_vrfs, h1, h2]

/-- `get_contracts` depends only on the contract-children responses. -/
theorem get_contracts_congr (env₁ env₂ : ApiEnv)
    (h3 : ∀ dn, env₁.tenantContracts dn = env₂.tenantContracts dn) (dn : String) :
    get_contracts env₁ dn = get_contracts env₂ dn := by
  simp only [get_contracts, h3]

/-- A no-data object fetch makes both EPG resolvers return `none`. -/
theorem get_epg_info_of_noData (env : ApiEnv) (dn : String)
    (h : noData (env.moFetch dn)) : get_epg_info env dn = none := by
  unfold get_epg_info get_external_epg_info get_internal_epg_info
  rcases h with h | h | h <;> rw [h] <;> split <;> rfl

/-- EPG resolution depends only on the object-fetch, Bridge-Domain and
subnet responses. -/
theorem get_epg_info_congr (env₁ env₂ : ApiEnv)
    (hmo : env₁.moFetch = env₂.moFetch)
    (hbd : env₁.epgRsBd = env₂.epgRsBd)
    (hsub : env₁.bdSubnets = env₂.bdSubnets)
    (hext : env₁.extSubnets = env₂.extSubnets) (dn : String) :
    get_epg_info env₁ dn = get_epg_info env₂ dn := by
  simp only [get_epg_info, get_external_epg_info, get_internal_epg_info,
    get_external_subnets, get_internal_subnets, hmo, hbd, hsub, hext]

/-- The provider contribution of one relation record: a `vzRtProv` whose
target resolves. -/
def provOf (env : ApiEnv) : RelItem → Option EpgInfo
  | .prov t => get_epg_info env t
  | .cons _ => none

/-- The consumer contribution of one relation record: a `vzRtCons` whose
target resolves. -/
def consOf (env : ApiEnv) : RelItem → Option EpgInfo
  | .cons t => get_epg_info env t
  | .prov _ => none

/-- The relation loop appends, in insertion order, exactly the resolved
provider and consumer targets. -/
theorem foldl_relStep (env : ApiEnv) (items : List RelItem) (p c : List EpgInfo) :
    items.foldl (relStep env) (p, c) =
      (p ++ items.filterMap (provOf env), c ++ items.filterMap (consOf env)) := by
  induction items generalizing p c with
  | nil => simp
  | cons it rest ih =>
    cases it with
    | prov t =>
      cases h : get_epg_info env t with
      | none => simp [relStep, h, provOf, consOf, ih]
      | some e => simp [relStep, h, provOf, consOf, ih]
    | cons t =>
      cases h : get_epg_info env t with
      | none => simp [relStep, h, provOf, consOf, ih]
      | some e => simp [relStep, h, provOf, consOf, ih]

/-- Characterization of `get_contract_relationships` on a response with
an `imdata` list: both result lists are order-preserving resolutions. -/
theorem get_contract_relationships_eq (env : ApiEnv) (dn : String)
    (items : List RelItem)
    (h : env.contractRelations dn = some (some items)) :
    get_contract_relationships env dn =
      (items.filterMap (provOf env), items.filterMap (consOf env)) := by
  simp [get_contract_relationships, h, foldl_relStep]

/-! ### Claim theorems -/

/-- C1: resolving an EPG whose target path contains the external marker
`"/out-"` classifies it `external`, and every subnet it returns is built
by `extSubnetOfAttrs`, whose description is the subnet record's `name`
attribute and which is insensitive to the record's `descr` attribute. -/
theorem external_epg_classification (env : ApiEnv) (dn : String) (info : EpgInfo)
    (hmark : strContainsSub dn "/out-" = true)
    (hres : get_epg_info env dn = some info) :
    info.type = "external" ∧
    ∀ s ∈ info.subnets, ∃ a : L3SubnetAttrs, s = extSubnetOfAttrs a ∧
      s.description = a.name.getD "" ∧
      ∀ d : Option String, extSubnetOfAttrs { a with descr := d } = s := by
  rw [get_epg_info, if_pos hmark] at hres
  unfold get_external_epg_info at hres
  split at hres
  case h_2 => exact absurd hres (by simp)
  case h_1 item rest heq =>
    cases item with
    | fvAEPg n => exact absurd hres (by simp)
    | l3extInstP n =>
      cases Option.some.inj hres
      refine ⟨rfl, ?_⟩
      intro s hs
      simp only [get_external_subnets] at hs
      split at hs
      case h_2 => simp at hs
      case h_1 items heq2 =>
        split at hs
        · simp at hs
        · obtain ⟨a, _, rfl⟩ := List.mem_map.mp hs
          exact ⟨a, rfl, rfl, fun d => rfl⟩

/-- C1 witness: the concrete external EPG of `envW` resolves as claimed. -/
theorem external_epg_classification_witness :
    extEpgW.type = "external" ∧
    ∀ s ∈ extEpgW.subnets,
      ∃ a : L3SubnetAttrs, s = extSubnetOfAttrs a ∧
        s.description = a.name.getD "" ∧
        ∀ d : Option String, extSubnetOfAttrs { a with descr := d } = s :=
  external_epg_classification envW extDn extEpgW (by decide) (by decide)

/-- C2: resolving an EPG whose target path lacks the external marker
classifies it `internal`; its subnets are those of the single Bridge
Domain referenced by the first `fvRsBd` child (whatever other children
follow), and each one's description is the record's `descr` attribute. -/
theorem internal_epg_classification (env : ApiEnv) (dn : String) (info : EpgInfo)
    (b : RsBdAttrs) (rest : List RsBdAttrs) (items : List FvSubnetAttrs)
    (hmark : strContainsSub dn "/out-" = false)
    (hbd : env.epgRsBd dn = some (some (b :: rest)))
    (hsub : env.bdSubnets b.tDn = some (some items))
    (hres : get_epg_info env dn = some info) :
    info.type = "internal" ∧
    info.subnets = items.map internalSubnetOfAttrs ∧
    ∀ a ∈ items, (internalSubnetOfAttrs a).description = a.descr.getD "" := by
  rw [get_epg_info, if_neg (by simp [hmark])] at hres
  unfold get_internal_epg_info at hres
  split at hres
  case h_2 => exact absurd hres (by simp)
  case h_1 item rest' heq =>
    cases item with
    | l3extInstP n => exact absurd hres (by simp)
    | fvAEPg n =>
      cases Option.some.inj hres
      refine ⟨rfl, ?_, fun a _ => rfl⟩
      simp only [get_internal_subnets, hbd, hsub]
      split <;> simp_all

/-- C2 witness: the concrete internal EPG of `envW` resolves as claimed. -/
theorem internal_epg_classification_witness :
    intEpgW.type = "internal" ∧
    intEpgW.subnets =
      ([⟨"10.0.0.0/24", some "servers"⟩] : List FvSubnetAttrs).map internalSubnetOfAttrs ∧
    ∀ a ∈ ([⟨"10.0.0.0/24", some "servers"⟩] : List FvSubnetAttrs),
      (internalSubnetOfAttrs a).description = a.descr.getD "" :=
  internal_epg_classification envW intDn intEpgW ⟨"bd-1"⟩ []
    [⟨"10.0.0.0/24", some "servers"⟩] (by decide) (by decide) (by decide) (by decide)

/-- C3: an external subnet record whose scope contains `"export-rtctrl"`
is tagged `"exp"`; one whose (non-empty) scope does not is tagged
`"ext"`; an internal subnet's tag is always `"internal"`, never one of
the two external classifications. -/
theorem subnet_scope_classification (a : L3SubnetAttrs) (b : FvSubnetAttrs)
    (_hne : a.scope.getD "" ≠ "") :
    (strContainsSub (a.scope.getD "") "export-rtctrl" = true →
       (extSubnetOfAttrs a).type = "exp") ∧
    (strContainsSub (a.scope.getD "") "export-rtctrl" = false →
       (extSubnetOfAttrs a).type = "ext") ∧
    (internalSubnetOfAttrs b).type = "internal" ∧
    (internalSubnetOfAttrs b).type ≠ "exp" ∧
    (internalSubnetOfAttrs b).type ≠ "ext" := by
  refine ⟨fun h => ?_, fun h => ?_, rfl,
    by simp [internalSubnetOfAttrs], by simp [internalSubnetOfAttrs]⟩ <;>
    simp [extSubnetOfAttrs, h]

/-- C3 witness: a scope without the marker tags `"ext"`; an internal
subnet keeps the `"internal"` tag. -/
theorem subnet_scope_classification_witness :
    (extSubnetOfAttrs ⟨"1.2.3.0/24", some "n", none, some "import-security"⟩).type
      = "ext" ∧
    (internalSubnetOfAttrs ⟨"10.0.0.0/24", some "d"⟩).type = "internal" :=
  ⟨(subnet_scope_classification ⟨"1.2.3.0/24", some "n", none, some "import-security"⟩
      ⟨"10.0.0.0/24", some "d"⟩ (by decide)).2.1 (by decide),
   (subnet_scope_classification ⟨"1.2.3.0/24", some "n", none, some "import-security"⟩
      ⟨"10.0.0.0/24", some "d"⟩ (by decide)).2.2.1⟩

/-- C10: an external subnet record with an absent or empty scope is
tagged `"ext"`, and the `"exp"` tag is produced exactly when
`"export-rtctrl"` occurs as a substring of the scope value. -/
theorem empty_scope_classification (a : L3SubnetAttrs) :
    ((a.scope = none ∨ a.scope = some "") → (extSubnetOfAttrs a).type = "ext") ∧
    ((extSubnetOfAttrs a).type = "exp" ↔
       strContainsSub (a.scope.getD "") "export-rtctrl" = true) := by
  constructor
  · rintro (h | h) <;> simp [extSubnetOfAttrs, h] <;> decide
  · by_cases h : strContainsSub (a.scope.getD "") "export-rtctrl" = true <;>
      simp [extSubnetOfAttrs, h]

/-- C10 witness: a record with no scope attribute is tagged `"ext"` and
not `"exp"`. -/
theorem empty_scope_classification_witness :
    (extSubnetOfAttrs ⟨"1.2.3.0/24", none, none, none⟩).type = "ext" ∧
    ¬ (extSubnetOfAttrs ⟨"1.2.3.0/24", none, none, none⟩).type = "exp" :=
  ⟨(empty_scope_classification ⟨"1.2.3.0/24", none, none, none⟩).1 (Or.inl rfl),
   fun h => by
     have := (empty_scope_classification ⟨"1.2.3.0/24", none, none, none⟩).2.mp h
     exact absurd this (by decide)⟩

/-- C6: when the plain object fetch of a target path returns the no-data
sentinel, or a response whose `imdata` is absent or empty, EPG resolution
returns `none` (and, being a total function, raises nothing). -/
theorem epg_resolution_noData (env : ApiEnv) (dn : String)
    (h : noData (env.moFetch dn)) : get_epg_info env dn = none :=
  get_epg_info_of_noData env dn h

/-- C6 witness: the unresolvable target path of `envW` resolves to
`none`. -/
theorem epg_resolution_noData_witness :
    get_epg_info envW "uni/tn-a/out-O/instP-gone" = none :=
  epg_resolution_noData envW "uni/tn-a/out-O/instP-gone" (by decide)

/-- `envW` with the unresolvable provider relation absent. -/
def envW4 : ApiEnv :=
  { envW with
      contractRelations := fun dn =>
        if dn = "cdn-1" then some (some [.prov extDn, .cons intDn]) else none }

/-- C4: when the object fetch of one relation's target returns no data,
that relation alone is dropped: the contract's resolved lists are the
order-preserving resolutions of the remaining relations, and equal what
a controller without that relation would have produced. -/
theorem relation_drop (env env' : ApiEnv) (dn : String)
    (l₁ l₂ : List RelItem) (r : RelItem)
    (hrel : env.contractRelations dn = some (some (l₁ ++ r :: l₂)))
    (hrel' : env'.contractRelations dn = some (some (l₁ ++ l₂)))
    (hmo : env'.moFetch = env.moFetch)
    (hbd : env'.epgRsBd = env.epgRsBd)
    (hsub : env'.bdSubnets = env.bdSubnets)
    (hext : env'.extSubnets = env.extSubnets)
    (hfail : noData (env.moFetch r.tDn)) :
    get_contract_relationships env dn =
      ((l₁ ++ l₂).filterMap (provOf env), (l₁ ++ l₂).filterMap (consOf env)) ∧
    get_contract_relationships env dn = get_contract_relationships env' dn := by
  have hnone : get_epg_info env r.tDn = none := get_epg_info_of_noData env r.tDn hfail
  have hp : provOf env r = none := by
    cases r with
    | prov t => exact hnone
    | cons t => rfl
  have hq : consOf env r = none := by
    cases r with
    | prov t => rfl
    | cons t => exact hnone
  have e1 := get_contract_relationships_eq env dn _ hrel
  have e2 := get_contract_relationships_eq env' dn _ hrel'
  have hmain : get_contract_relationships env dn =
      ((l₁ ++ l₂).filterMap (provOf env), (l₁ ++ l₂).filterMap (consOf env)) := by
    rw [e1]
    simp [List.filterMap_append, List.filterMap_cons, hp, hq]
  refine ⟨hmain, ?_⟩
  have hcongr : ∀ d, get_epg_info env' d = get_epg_info env d :=
    get_epg_info_congr env' env hmo hbd hsub hext
  have hpf : provOf env' = provOf env := funext fun it => by
    cases it <;> simp [provOf, hcongr]
  have hqf : consOf env' = consOf env := funext fun it => by
    cases it <;> simp [consOf, hcongr]
  rw [hmain, e2, hpf, hqf]

/-- C4 witness: dropping the dead provider relation of `envW` leaves the
resolved lists of contract `c1` unchanged. -/
theorem relation_drop_witness :
    get_contract_relationships envW "cdn-1" =
      (([RelItem.prov extDn, RelItem.cons intDn]).filterMap (provOf envW),
       ([RelItem.prov extDn, RelItem.cons intDn]).filterMap (consOf envW)) ∧
    get_contract_relationships envW "cdn-1" =
      get_contract_relationships envW4 "cdn-1" :=
  relation_drop envW envW4 "cdn-1" [.prov extDn, .cons intDn] []
    (.prov "uni/tn-a/out-O/instP-gone")
    (by decide) (by decide) rfl rfl rfl rfl (by decide)

/-- C5: the tenant list never contains an excluded name, is sorted
ascending by name, and a non-excluded tenant whose VRF fetch returns no
data still appears, with an empty VRF list. -/
theorem tenants_filtered_sorted (env : ApiEnv) :
    (∀ t ∈ get_tenants env, t.name ∉ EXCLUDED_TENANTS) ∧
    List.Sorted tenantLe (get_tenants env) ∧
    ∀ items : List TenantAttrs, env.classTenants = some (some items) →
      ∀ a ∈ items, a.name ∉ EXCLUDED_TENANTS →
        noData (env.tenantVrfs a.dn) →
        ∃ t ∈ get_tenants env, t.name = a.name ∧ t.dn = a.dn ∧ t.vrfs = [] := by
  refine ⟨?_, ?_, ?_⟩
  · intro t ht
    unfold get_tenants at ht
    split at ht
    · simp at ht
    · rw [List.mem_insertionSort] at ht
      obtain ⟨a, _, hfa⟩ := List.mem_filterMap.mp ht
      by_cases hcont : EXCLUDED_TENANTS.contains a.name
      · rw [if_pos hcont] at hfa
        exact absurd hfa (by simp)
      · rw [if_neg hcont] at hfa
        cases Option.some.inj hfa
        simpa using hcont
  · unfold get_tenants
    split
    · exact List.sorted_nil
    · exact List.sorted_insertionSort tenantLe _
  · intro items hitems a ha hexcl hnd
    have hvrfs := get_tenant_vrfs_of_noData env a.dn hnd
    refine ⟨⟨a.name, a.dn, []⟩, ?_, rfl, rfl, rfl⟩
    simp only [get_tenants, hitems, Option.getD_some]
    rw [List.mem_insertionSort]
    refine List.mem_filterMap.mpr ⟨a, ha, ?_⟩
    rw [if_neg (by simpa using hexcl), hvrfs]

/-- C5 witness: tenant `zeta` of `envW`, whose VRF fetch returns no
data, appears in the output with an empty VRF list. -/
theorem tenants_filtered_sorted_witness :
    ∃ t ∈ get_tenants envW, t.name = "zeta" ∧ t.dn = "tn-zeta" ∧ t.vrfs = [] :=
  (tenants_filtered_sorted envW).2.2
    [⟨"zeta", "tn-zeta"⟩, ⟨"infra", "tn-infra"⟩, ⟨"alpha", "tn-alpha"⟩]
    rfl ⟨"zeta", "tn-zeta"⟩ (by decide) (by decide) (by decide)

/-- The contracts used by the C7 witness. -/
def cGoodW : Contract := ⟨"c1", "cdn-1"⟩

/-- A contract of the C7 witness whose relation fetch returns no data. -/
def cEmptyW : Contract := ⟨"b-empty", "cdn-none"⟩

/-- C7: a contract whose resolved provider and consumer lists are both
empty is skipped by the tenant section: the written body and the
provider/consumer totals are exactly those of the contract list without
it. -/
theorem empty_contract_omitted (env : ApiEnv) (stats : Stats)
    (l l' : List Contract) (c : Contract) (l₁ l₂ : List Contract)
    (hsplit : sortContracts l = l₁ ++ c :: l₂)
    (hsplit' : sortContracts l' = l₁ ++ l₂)
    (hc : get_contract_relationships env c.dn = ([], [])) :
    write_tenant_section env l stats = write_tenant_section env l' stats := by
  unfold write_tenant_section
  rw [hsplit, hsplit', List.foldl_append, List.foldl_append, List.foldl_cons]
  congr 1
  simp [sectStep, hc]

/-- C7 witness: the all-empty contract `b-empty` changes neither the body
nor the totals of the section of `envW`. -/
theorem empty_contract_omitted_witness :
    write_tenant_section envW [cGoodW, cEmptyW] ⟨0, 0, 0⟩ =
      write_tenant_section envW [cGoodW] ⟨0, 0, 0⟩ :=
  empty_contract_omitted envW ⟨0, 0, 0⟩ [cGoodW, cEmptyW] [cGoodW] cEmptyW
    [] [cGoodW] (by decide) (by decide) (by decide)

/-- C8: the "tenants analysed" summary figure is the recount, by a second
per-tenant contract fetch, of the tenants with at least one contract; it
is unchanged under any change of the relationship- and subnet-level
responses, so tenants all of whose contracts resolve to zero providers
and consumers still count. -/
theorem tenants_analyzed_recount (env env' : ApiEnv)
    (h1 : env'.classTenants = env.classTenants)
    (h2 : ∀ dn, env'.tenantVrfs dn = env.tenantVrfs dn)
    (h3 : ∀ dn, env'.tenantContracts dn = env.tenantContracts dn) :
    (generate_complete_report env).tenantsAnalyzed =
      ((get_tenants env).filter fun t => !(get_contracts env t.dn).isEmpty).length ∧
    (generate_complete_report env').tenantsAnalyzed =
      (generate_complete_report env).tenantsAnalyzed := by
  constructor
  · rfl
  · have ht := get_tenants_congr env' env h1 h2
    have hc := fun dn => get_contracts_congr env' env h3 dn
    simp [generate_complete_report, tenantsAnalyzedCount, ht, hc]

/-- C8 witness: `envW4` differs from `envW` only below the contract
level, and the summary figure agrees. -/
theorem tenants_analyzed_recount_witness :
    (generate_complete_report envW).tenantsAnalyzed =
      ((get_tenants envW).filter fun t => !(get_contracts envW t.dn).isEmpty).length ∧
    (generate_complete_report envW4).tenantsAnalyzed =
      (generate_complete_report envW).tenantsAnalyzed :=
  tenants_analyzed_recount envW envW4 rfl (fun _ => rfl) (fun _ => rfl)

/-- C9: listing tenants is a pure function of the controller's
tenant-class and VRF responses: two runs against identical responses
yield identical ordered output. -/
theorem tenants_idempotent (env₁ env₂ : ApiEnv)
    (h1 : env₁.classTenants = env₂.classTenants)
    (h2 : ∀ dn, env₁.tenantVrfs dn = env₂.tenantVrfs dn) :
    get_tenants env₁ = get_tenants env₂ :=
  get_tenants_congr env₁ env₂ h1 h2

/-- C9 witness: two runs against `envW` agree. -/
theorem tenants_idempotent_witness : get_tenants envW = get_tenants envW :=
  tenants_idempotent envW envW rfl (fun _ => rfl)

end AciParser
